import Mathlib

/-
Verification of the collision-grid derivation and pathfinding engine of the
Willowbrook world renderer.

The definitions below are a shallow embedding of the TypeScript sources:
  * `EnvironmentNode`         — frontend/src/ApiClient.ts (collision-relevant
    fields only; id/name/description/tile_key are render-only and never read
    by the collision code).  The footprint dimensions `w`/`h` are modelled as
    `Option Nat`: `none` stands for a field that is absent at runtime
    (`undefined` in JS); the code defends against that with `node.w || 1`.
  * `CollisionState`, `setCollision`, `isBlocked`, `isBlockedAtPixel`,
    `initCollisionGrid`, `resizeCollisionGrid`, `buildCollisionFromTree`
    — frontend/src/WorldRenderer.ts.  The dense `boolean[][]` grid is
    embedded as a total function `Nat → Nat → Bool` (row, column) together
    with the dimensions and the tile-coordinate offset of the origin;
    an in-place array write becomes a pointwise function update guarded by
    the same bounds check as the source.
  * `TilemapRenderer.isBlocked` — the tilemap-based variant of the renderer.
  * `findPath` and its helpers — the Pathfinder; its code is not part of the
    sources, so it is modelled from the spec (see the doc comments there).
-/

/-- A node of the scene tree (`EnvironmentNode` in ApiClient.ts), restricted to
the fields the collision code reads: `node_type`, position `x`,`y` (tile
units, may be negative), footprint `w`,`h` (`none` = field missing at
runtime), the walkability flag and the ordered children list. -/
inductive EnvironmentNode where
  | mk (node_type : String) (x y : Int) (w h : Option Nat) (walkable : Bool)
      (children : List EnvironmentNode)

def EnvironmentNode.node_type : EnvironmentNode → String
  | .mk t _ _ _ _ _ _ => t

def EnvironmentNode.x : EnvironmentNode → Int
  | .mk _ x _ _ _ _ _ => x

def EnvironmentNode.y : EnvironmentNode → Int
  | .mk _ _ y _ _ _ _ => y

def EnvironmentNode.w : EnvironmentNode → Option Nat
  | .mk _ _ _ w _ _ _ => w

def EnvironmentNode.h : EnvironmentNode → Option Nat
  | .mk _ _ _ _ h _ _ => h

def EnvironmentNode.walkable : EnvironmentNode → Bool
  | .mk _ _ _ _ _ wk _ => wk

def EnvironmentNode.children : EnvironmentNode → List EnvironmentNode
  | .mk _ _ _ _ _ _ cs => cs

/-- The JS idiom `node.w || 1`: a missing (`undefined`) or zero dimension
defaults to 1. -/
def dimOr1 : Option Nat → Nat
  | none => 1
  | some 0 => 1
  | some (n + 1) => n + 1

/-- The JS expression `node.w` used directly as a loop extent: a missing
dimension makes the loop bound `NaN`, so the loop body never runs, which is
the same as extent 0. -/
def rawDim (d : Option Nat) : Nat := d.getD 0

/-- The `isArea` test of `buildCollisionFromTree`:
`['world', 'zone', 'room', 'building'].includes(node.node_type)`. -/
def isAreaNode (n : EnvironmentNode) : Bool :=
  ["world", "zone", "room", "building"].contains n.node_type

/-- The collision grid state of `WorldRenderer`: the `boolean[][]` grid
(`true` = blocked) as a total function from (row, column) to Bool, plus
`gridW`, `gridH`, `gridOffsetX`, `gridOffsetY`. -/
structure CollisionState where
  grid : Nat → Nat → Bool
  gridW : Nat
  gridH : Nat
  gridOffsetX : Int
  gridOffsetY : Int

/-- `setCollision(tileX, tileY, blocked)`: translate the world tile coordinate
into the grid frame and write the cell if it is inside bounds, else do
nothing. -/
def setCollision (s : CollisionState) (tileX tileY : Int) (blocked : Bool) :
    CollisionState :=
  let gx := tileX - s.gridOffsetX
  let gy := tileY - s.gridOffsetY
  if 0 ≤ gx ∧ 0 ≤ gy ∧ gx < (s.gridW : Int) ∧ gy < (s.gridH : Int) then
    { s with grid := fun r c =>
        if r = gy.toNat ∧ c = gx.toNat then blocked else s.grid r c }
  else s

/-- `isBlocked(tileX, tileY)`: out-of-bounds coordinates are blocked, in-bounds
coordinates return the stored cell. -/
def isBlocked (s : CollisionState) (tileX tileY : Int) : Bool :=
  let gx := tileX - s.gridOffsetX
  let gy := tileY - s.gridOffsetY
  if gx < 0 ∨ gy < 0 ∨ (s.gridW : Int) ≤ gx ∨ (s.gridH : Int) ≤ gy then true
  else s.grid gy.toNat gx.toNat

/-- `TILE_SIZE = 16` (WorldRenderer.ts). -/
def TILE_SIZE : Nat := 16

/-- `RENDER_SCALE = 3` (WorldRenderer.ts). -/
def RENDER_SCALE : Nat := 3

/-- `SCALED_TILE = TILE_SIZE * RENDER_SCALE` (48 px). -/
def SCALED_TILE : Nat := TILE_SIZE * RENDER_SCALE

/-- `isBlockedAtPixel(px, py)`: floor the pixel position to tile units and
query `isBlocked`.  Pixel coordinates are JS numbers, modelled as rationals;
`Math.floor` is the rational floor. -/
def isBlockedAtPixel (s : CollisionState) (px py : ℚ) : Bool :=
  isBlocked s ⌊px / (SCALED_TILE : ℚ)⌋ ⌊py / (SCALED_TILE : ℚ)⌋

/-- `initCollisionGrid(root)`: take the frame from the root node's bounds and
start with every cell blocked. -/
def initCollisionGrid (root : EnvironmentNode) : CollisionState :=
  { gridOffsetX := root.x
    gridOffsetY := root.y
    gridW := rawDim root.w
    gridH := rawDim root.h
    grid := fun _ _ => true }

/-- One row of the copy loop of `resizeCollisionGrid`: for `x` from 0 to
`cnt - 1`, translate old cell `(x, y)` into the new frame and copy its value
into the new grid when the translated coordinate is inside the new bounds. -/
def copyRowN (s : CollisionState) (nOX nOY : Int) (nW nH : Nat) (y : Nat)
    (cnt : Nat) (g : Nat → Nat → Bool) : Nat → Nat → Bool :=
  (List.range cnt).foldl (fun g2 (x : Nat) =>
    let nx := ((x : Int) + s.gridOffsetX) - nOX
    let ny := ((y : Int) + s.gridOffsetY) - nOY
    if 0 ≤ nx ∧ nx < (nW : Int) ∧ 0 ≤ ny ∧ ny < (nH : Int) then
      fun r c => if r = ny.toNat ∧ c = nx.toNat then s.grid y x else g2 r c
    else g2) g

/-- The full copy loop of `resizeCollisionGrid`: rows `y` from 0 to `cnt - 1`,
each row copying `s.gridW` cells. -/
def copyAllN (s : CollisionState) (nOX nOY : Int) (nW nH : Nat) (cnt : Nat)
    (g : Nat → Nat → Bool) : Nat → Nat → Bool :=
  (List.range cnt).foldl (fun g2 y => copyRowN s nOX nOY nW nH y s.gridW g2) g

/-- `resizeCollisionGrid(root)`: allocate a new default-blocked grid of the new
bounds, copy every old cell whose translated coordinate
(`oldCoord + oldOffset - newOffset`) lands inside the new bounds, and adopt
the new frame. -/
def resizeCollisionGrid (s : CollisionState) (root : EnvironmentNode) :
    CollisionState :=
  { grid := copyAllN s root.x root.y (rawDim root.w) (rawDim root.h) s.gridH
      (fun _ _ => true)
    gridW := rawDim root.w
    gridH := rawDim root.h
    gridOffsetX := root.x
    gridOffsetY := root.y }

/-- Inner loop `for (tx = x; tx < x + w; tx++) setCollision(tx, yy, bl)` of the
three marking branches of `buildCollisionFromTree`. -/
def markRow (s : CollisionState) (x yy : Int) (w : Nat) (bl : Bool) :
    CollisionState :=
  (List.range w).foldl
    (fun acc (j : Nat) => setCollision acc (x + (j : Int)) yy bl) s

/-- The double loop `for (ty ...) for (tx ...) setCollision(tx, ty, bl)` over a
`w × h` footprint anchored at `(x, y)`. -/
def markRect (s : CollisionState) (x y : Int) (w h : Nat) (bl : Bool) :
    CollisionState :=
  (List.range h).foldl
    (fun acc (i : Nat) => markRow acc x (y + (i : Int)) w bl) s

/-- The marks a single node applies to the grid: the three sequential `if`
branches of `buildCollisionFromTree` before the recursion into children.
Area nodes use the raw `node.w`/`node.h` extents; object nodes use
`node.w || 1` and `node.h || 1`. -/
def applyNodeMarks (s : CollisionState) (n : EnvironmentNode) : CollisionState :=
  let isArea := isAreaNode n
  let s1 :=
    if isArea && n.walkable then
      markRect s n.x n.y (rawDim n.w) (rawDim n.h) false
    else s
  let s2 :=
    if !isArea && !n.walkable then
      markRect s1 n.x n.y (dimOr1 n.w) (dimOr1 n.h) true
    else s1
  if !isArea && n.walkable then
    markRect s2 n.x n.y (dimOr1 n.w) (dimOr1 n.h) false
  else s2

mutual

/-- `buildCollisionFromTree(node)`: apply the node's own marks, then recurse
into the children in order (pre-order traversal). -/
def buildCollisionFromTree : CollisionState → EnvironmentNode → CollisionState
  | s, .mk t x y w h wk cs =>
      buildCollisionList (applyNodeMarks s (.mk t x y w h wk cs)) cs

/-- `for (const child of node.children) this.buildCollisionFromTree(child)`. -/
def buildCollisionList : CollisionState → List EnvironmentNode → CollisionState
  | s, [] => s
  | s, c :: rest => buildCollisionList (buildCollisionFromTree s c) rest

end

mutual

/-- The pre-order node list of a scene tree: the node itself, then the
pre-order lists of its children in order.  This is the order in which
`buildCollisionFromTree` applies per-node marks. -/
def preorder : EnvironmentNode → List EnvironmentNode
  | .mk t x y w h wk cs => .mk t x y w h wk cs :: preorderList cs

/-- Concatenated pre-order lists of a forest. -/
def preorderList : List EnvironmentNode → List EnvironmentNode
  | [] => []
  | c :: rest => preorder c ++ preorderList rest

end

/-- Membership of a tile coordinate in the half-open `w × h` rectangle anchored
at `(x, y)`. -/
def inRect (x y : Int) (w h : Nat) (tx ty : Int) : Prop :=
  x ≤ tx ∧ tx < x + (w : Int) ∧ y ≤ ty ∧ ty < y + (h : Int)

instance (x y : Int) (w h : Nat) (tx ty : Int) :
    Decidable (inRect x y w h tx ty) := by
  unfold inRect; infer_instance

/-- Boolean rectangle membership. -/
def inRectB (x y : Int) (w h : Nat) (tx ty : Int) : Bool :=
  decide (inRect x y w h tx ty)

/-- Whether node `n`'s own collision rule writes to world tile `(tx, ty)`
(ignoring grid bounds): a walkable area node writes its raw footprint, an
object node writes its defaulted footprint, a non-walkable area node writes
nothing. -/
def nodeMarksB (n : EnvironmentNode) (tx ty : Int) : Bool :=
  if isAreaNode n then
    n.walkable && inRectB n.x n.y (rawDim n.w) (rawDim n.h) tx ty
  else
    inRectB n.x n.y (dimOr1 n.w) (dimOr1 n.h) tx ty

/-- The value node `n` writes where its rule applies: blocked exactly for
non-walkable object nodes. -/
def nodeMarkVal (n : EnvironmentNode) : Bool := !n.walkable

/-- Last-writer-wins accumulator step over a node list. -/
def lmStep (tx ty : Int) (acc : Option Bool) (m : EnvironmentNode) :
    Option Bool :=
  if nodeMarksB m tx ty then some (nodeMarkVal m) else acc

/-- The last mark applied to world tile `(tx, ty)` by the nodes of `L`
processed in order, if any. -/
def lastMarkFlat (L : List EnvironmentNode) (tx ty : Int) : Option Bool :=
  L.foldl (lmStep tx ty) none

/-- Right-biased-to-the-left choice: the first argument wins when present. -/
def olast (a b : Option Bool) : Option Bool :=
  match a with
  | some v => some v
  | none => b

/-- A world tile coordinate lies inside the grid's current bounds. -/
def inBounds (s : CollisionState) (tx ty : Int) : Prop :=
  0 ≤ tx - s.gridOffsetX ∧ tx - s.gridOffsetX < (s.gridW : Int) ∧
  0 ≤ ty - s.gridOffsetY ∧ ty - s.gridOffsetY < (s.gridH : Int)

instance (s : CollisionState) (tx ty : Int) : Decidable (inBounds s tx ty) := by
  unfold inBounds; infer_instance

/-- Two collision states have the same frame (dimensions and offsets). -/
def FrameEq (s t : CollisionState) : Prop :=
  s.gridW = t.gridW ∧ s.gridH = t.gridH ∧
  s.gridOffsetX = t.gridOffsetX ∧ s.gridOffsetY = t.gridOffsetY

instance (s t : CollisionState) : Decidable (FrameEq s t) := by
  unfold FrameEq; infer_instance

/-- The tilemap-based variant of the renderer (its `WorldRenderer` class): a
possibly-absent collision layer (queried through `getTileAt`, modelled as a
presence function: `true` at a coordinate means a collision tile exists
there) plus the map dimensions in tiles. -/
structure TilemapRenderer where
  collisionLayer : Option (Int → Int → Bool)
  mapW : Nat
  mapH : Nat

/-- The tilemap variant of `isBlocked`: with no collision layer every query
returns `false`; otherwise out-of-bounds coordinates are blocked and
in-bounds coordinates report whether a collision tile exists there. -/
def TilemapRenderer.isBlocked (m : TilemapRenderer) (tileX tileY : Int) :
    Bool :=
  match m.collisionLayer with
  | none => false
  | some layer =>
    if tileX < 0 ∨ tileY < 0 ∨ (m.mapW : Int) ≤ tileX ∨ (m.mapH : Int) ≤ tileY
    then true
    else layer tileX tileY

/-- A tile coordinate, for the Pathfinder. -/
abbrev Tile := Int × Int

/-- Modelled from the spec: the Pathfinder is absent from the sources, so its
ring bound ("radius 1 up to a fixed small bound") is modelled as a named
constant. -/
def RING_SEARCH_BOUND : Nat := 4

/-- Modelled from the spec: the Pathfinder's "maximum iteration count" that
bounds the search. -/
def MAX_SEARCH_ITERATIONS : Nat := 2000

/-- Modelled from the spec: Manhattan distance, the Pathfinder's admissible
heuristic. -/
def manhattan (a b : Tile) : Nat :=
  (a.1 - b.1).natAbs + (a.2 - b.2).natAbs

/-- Modelled from the spec: 4-directional neighbourhood (no diagonals). -/
def neighbors (t : Tile) : List Tile :=
  [(t.1 + 1, t.2), (t.1 - 1, t.2), (t.1, t.2 + 1), (t.1, t.2 - 1)]

/-- Modelled from the spec: the perimeter of the square ring of radius `r`
around `g` (the cells at Chebyshev distance exactly `r`). -/
def ringPerimeter (g : Tile) (r : Nat) : List Tile :=
  ((List.range (2 * r + 1)).map (fun i =>
    (List.range (2 * r + 1)).filterMap (fun j =>
      let dx : Int := (i : Int) - (r : Int)
      let dy : Int := (j : Int) - (r : Int)
      if max dx.natAbs dy.natAbs = r then some (g.1 + dx, g.2 + dy)
      else none))).foldl (fun acc l => acc ++ l) []

/-- Modelled from the spec: search rings of increasing radius (starting at
`r`, `fuel` rings in total) for the first unblocked tile on a ring's
perimeter. -/
def ringSearchFrom (blocked : Tile → Bool) (goal : Tile) :
    Nat → Nat → Option Tile
  | _, 0 => none
  | r, fuel + 1 =>
    match (ringPerimeter goal r).find? (fun t => !blocked t) with
    | some t => some t
    | none => ringSearchFrom blocked goal (r + 1) fuel

/-- Modelled from the spec: the destination-blocked policy.  An unblocked goal
is kept as is; a blocked goal is replaced by the nearest unblocked tile found
on ring perimeters of radius 1 up to `RING_SEARCH_BOUND`; if none exists the
request fails (`none`). -/
def substituteGoal (blocked : Tile → Bool) (goal : Tile) : Option Tile :=
  if blocked goal then ringSearchFrom blocked goal 1 RING_SEARCH_BOUND
  else some goal

/-- Association-list lookup keyed by tiles. -/
def lookupTile {α : Type} (l : List (Tile × α)) (k : Tile) : Option α :=
  match l.find? (fun p => decide (p.1 = k)) with
  | some p => some p.2
  | none => none

/-- Modelled from the spec: insert an open-list entry `(priority, cost, tile)`
keeping the list sorted by priority, placing the new entry after existing
entries of equal priority (deterministic insertion-order tie-break). -/
def insertOpen (e : Nat × Nat × Tile) :
    List (Nat × Nat × Tile) → List (Nat × Nat × Tile)
  | [] => [e]
  | f :: rest => if f.1 ≤ e.1 then f :: insertOpen e rest else e :: f :: rest

/-- Modelled from the spec: walk the parent map back from the goal to the
start, producing the path exclusive of the start and inclusive of the
destination. -/
def reconstructGo (parents : List (Tile × Tile)) (start : Tile) :
    Nat → Tile → List Tile → List Tile
  | 0, _, acc => acc
  | fuel + 1, cur, acc =>
    if cur = start then acc
    else
      match lookupTile parents cur with
      | none => acc
      | some p => reconstructGo parents start fuel p (cur :: acc)

/-- Modelled from the spec: path reconstruction entry point. -/
def reconstructPath (parents : List (Tile × Tile)) (start goal : Tile)
    (fuel : Nat) : List Tile :=
  reconstructGo parents start fuel goal []

/-- Modelled from the spec: relax one neighbour during node expansion.  A
blocked neighbour is skipped; a neighbour already discovered with an
equal-or-better cost is discarded; otherwise it is pushed on the open list
with priority `cost-so-far + heuristic` and its cost and parent recorded. -/
def relaxNeighbor (blocked : Tile → Bool) (goal : Tile) (newCost : Nat)
    (t : Tile)
    (st : List (Nat × Nat × Tile) × List (Tile × Nat) × List (Tile × Tile))
    (nb : Tile) :
    List (Nat × Nat × Tile) × List (Tile × Nat) × List (Tile × Tile) :=
  if blocked nb then st
  else
    let known :=
      match lookupTile st.2.1 nb with
      | some b => decide (b ≤ newCost)
      | none => false
    if known then st
    else
      (insertOpen (newCost + manhattan nb goal, newCost, nb) st.1,
        (nb, newCost) :: st.2.1, (nb, t) :: st.2.2)

/-- Modelled from the spec: the bounded best-first search loop.  Pops the
lowest-priority open entry; on reaching the goal reconstructs the path;
otherwise expands the node's 4 neighbours.  Running out of fuel or
exhausting the open list yields the empty path ("unreachable"). -/
def searchLoop (blocked : Tile → Bool) (start goal : Tile) :
    Nat → List (Nat × Nat × Tile) → List (Tile × Nat) → List (Tile × Tile) →
    List Tile
  | 0, _, _, _ => []
  | _ + 1, [], _, _ => []
  | fuel + 1, (_, c, t) :: openRest, costs, parents =>
    if t = goal then reconstructPath parents start goal (fuel + 1)
    else
      let st := (neighbors t).foldl
        (relaxNeighbor blocked goal (c + 1) t) (openRest, costs, parents)
      searchLoop blocked start goal fuel st.1 st.2.1 st.2.2

/-- Modelled from the spec: `findPath(start, goal)`.  Apply the
destination-blocked substitution; fail to the empty path when it finds no
goal; return the empty path when the start already equals the (substituted)
goal; otherwise run the bounded best-first search from the start. -/
def findPath (blocked : Tile → Bool) (start goal : Tile) : List Tile :=
  match substituteGoal blocked goal with
  | none => []
  | some g =>
    if start = g then []
    else
      searchLoop blocked start g MAX_SEARCH_ITERATIONS
        [(manhattan start g, 0, start)] [(start, 0)] []

/-- A 4×3 all-blocked demo grid (for concrete instantiations). -/
def pixelDemoState : CollisionState :=
  initCollisionGrid (.mk "world" 0 0 (some 4) (some 3) true [])

/-- A tilemap renderer whose collision layer was never created. -/
def tilemapNoLayer : TilemapRenderer :=
  { collisionLayer := none, mapW := 10, mapH := 8 }

/-- A 2×2 world root (for the clipping instantiation). -/
def clipRoot : EnvironmentNode := .mk "world" 0 0 (some 2) (some 2) true []

/-- The grid built from `clipRoot`. -/
def clipState : CollisionState := initCollisionGrid clipRoot

/-- An object whose 3×3 footprint extends past the 2×2 grid. -/
def clipObj : EnvironmentNode := .mk "object" 1 1 (some 3) (some 3) false []

/-- The 4×4 root before a westward expansion. -/
def resizeOldRoot : EnvironmentNode := .mk "world" 0 0 (some 4) (some 4) true []

/-- The root after a westward expansion to offset (-6,0). -/
def resizeNewRoot : EnvironmentNode :=
  .mk "world" (-6) 0 (some 10) (some 4) true []

/-- The grid of `resizeOldRoot` (all blocked, in particular tile (2,2)). -/
def resizeOldState : CollisionState := initCollisionGrid resizeOldRoot

/-- A 2×2 walkable zone (for the rule-table instantiation). -/
def ruleZone : EnvironmentNode := .mk "zone" 0 0 (some 2) (some 2) true []

/-- A 3×3 all-blocked grid. -/
def ruleState : CollisionState :=
  initCollisionGrid (.mk "world" 0 0 (some 3) (some 3) false [])

/-- A non-walkable 1×1 object at (0,0). -/
def blockObj : EnvironmentNode := .mk "object" 0 0 (some 1) (some 1) false []

/-- A walkable 1×1 object (a door) at the same tile (0,0). -/
def doorObj : EnvironmentNode := .mk "object" 0 0 (some 1) (some 1) true []

/-- A world whose children are a blocking object and then a walkable door on
the same tile: the later door mark overwrites the earlier blocked mark. -/
def overwriteRoot : EnvironmentNode :=
  .mk "world" 0 0 (some 2) (some 2) true [blockObj, doorObj]

/-- A world with a single non-walkable object at (0,0) and nothing after it. -/
def fountainRoot : EnvironmentNode :=
  .mk "world" 0 0 (some 2) (some 2) true [blockObj]

/-- A walkable zone with both footprint dimensions missing. -/
def zoneNoDims : EnvironmentNode := .mk "zone" 0 0 none none true []

/-- A 1×1 non-walkable world containing `zoneNoDims`. -/
def missRoot : EnvironmentNode :=
  .mk "world" 0 0 (some 1) (some 1) false [zoneNoDims]

/-- A non-walkable object with both footprint dimensions missing. -/
def objNoDims : EnvironmentNode := .mk "object" 3 4 none none false []

/-- A 6×6 all-blocked grid. -/
def defState : CollisionState :=
  initCollisionGrid (.mk "world" 0 0 (some 6) (some 6) true [])

/-- The 2×2 walkable world root before expansion (no children). -/
def oldRoot4 : EnvironmentNode := .mk "world" 0 0 (some 2) (some 2) true []

/-- An expansion subtree: a walkable 2×2 zone covering the whole new strip. -/
def newSub4 : EnvironmentNode := .mk "zone" (-2) 0 (some 2) (some 2) true []

/-- The updated root: bounds grown west to (-2,0) 4×2, subtree appended. -/
def newRoot4 : EnvironmentNode :=
  .mk "world" (-2) 0 (some 4) (some 2) true [newSub4]

/-- An expansion subtree that does NOT cover the new strip: 1×1 zone only. -/
def smallSub4 : EnvironmentNode := .mk "zone" (-2) 0 (some 1) (some 1) true []

/-- The updated root for the non-covering subtree. -/
def cexRoot4 : EnvironmentNode :=
  .mk "world" (-2) 0 (some 4) (some 2) true [smallSub4]

theorem frameEq_trans {a b c : CollisionState} (h1 : FrameEq a b)
    (h2 : FrameEq b c) : FrameEq a c := by
  obtain ⟨w1, h1', x1, y1⟩ := h1
  obtain ⟨w2, h2', x2, y2⟩ := h2
  exact ⟨w1.trans w2, h1'.trans h2', x1.trans x2, y1.trans y2⟩

theorem setCollision_frame (s : CollisionState) (tx ty : Int) (bl : Bool) :
    FrameEq (setCollision s tx ty bl) s := by
  unfold setCollision
  by_cases h : 0 ≤ tx - s.gridOffsetX ∧ 0 ≤ ty - s.gridOffsetY ∧
      tx - s.gridOffsetX < (s.gridW : Int) ∧ ty - s.gridOffsetY < (s.gridH : Int)
  · rw [if_pos h]
    exact ⟨rfl, rfl, rfl, rfl⟩
  · rw [if_neg h]
    exact ⟨rfl, rfl, rfl, rfl⟩

theorem setCollision_grid (s : CollisionState) (tx ty : Int) (bl : Bool)
    (r c : Nat) :
    (setCollision s tx ty bl).grid r c =
      if tx - s.gridOffsetX = (c : Int) ∧ ty - s.gridOffsetY = (r : Int) ∧
          c < s.gridW ∧ r < s.gridH
      then bl else s.grid r c := by
  unfold setCollision
  by_cases h : 0 ≤ tx - s.gridOffsetX ∧ 0 ≤ ty - s.gridOffsetY ∧
      tx - s.gridOffsetX < (s.gridW : Int) ∧ ty - s.gridOffsetY < (s.gridH : Int)
  · rw [if_pos h]
    show (if r = (ty - s.gridOffsetY).toNat ∧ c = (tx - s.gridOffsetX).toNat
        then bl else s.grid r c) = _
    by_cases h2 : tx - s.gridOffsetX = (c : Int) ∧
        ty - s.gridOffsetY = (r : Int) ∧ c < s.gridW ∧ r < s.gridH
    · rw [if_pos (by omega), if_pos h2]
    · rw [if_neg (fun hA => h2 (by omega)), if_neg h2]
  · rw [if_neg h, if_neg (fun h2 => h (by omega))]

theorem markRow_succ (s : CollisionState) (x yy : Int) (w : Nat) (bl : Bool) :
    markRow s x yy (w + 1) bl =
      setCollision (markRow s x yy w bl) (x + (w : Int)) yy bl := by
  unfold markRow
  rw [List.range_succ, List.foldl_append]
  rfl

theorem markRow_frame (s : CollisionState) (x yy : Int) (w : Nat) (bl : Bool) :
    FrameEq (markRow s x yy w bl) s := by
  induction w with
  | zero => exact ⟨rfl, rfl, rfl, rfl⟩
  | succ w ih =>
    rw [markRow_succ]
    exact frameEq_trans (setCollision_frame _ _ _ _) ih

theorem markRow_grid (s : CollisionState) (x yy : Int) (w : Nat) (bl : Bool)
    (r c : Nat) :
    (markRow s x yy w bl).grid r c =
      if x ≤ (c : Int) + s.gridOffsetX ∧
          (c : Int) + s.gridOffsetX < x + (w : Int) ∧
          (r : Int) + s.gridOffsetY = yy ∧ c < s.gridW ∧ r < s.gridH
      then bl else s.grid r c := by
  induction w with
  | zero =>
    show s.grid r c = _
    rw [if_neg (by omega)]
  | succ w ih =>
    rw [markRow_succ, setCollision_grid]
    obtain ⟨hW, hH, hOX, hOY⟩ := markRow_frame s x yy w bl
    rw [hW, hH, hOX, hOY, ih]
    split_ifs <;> first | rfl | omega

theorem markRect_succ (s : CollisionState) (x y : Int) (w h : Nat) (bl : Bool) :
    markRect s x y w (h + 1) bl =
      markRow (markRect s x y w h bl) x (y + (h : Int)) w bl := by
  unfold markRect
  rw [List.range_succ, List.foldl_append]
  rfl

theorem markRect_frame (s : CollisionState) (x y : Int) (w h : Nat)
    (bl : Bool) : FrameEq (markRect s x y w h bl) s := by
  induction h with
  | zero => exact ⟨rfl, rfl, rfl, rfl⟩
  | succ h ih =>
    rw [markRect_succ]
    exact frameEq_trans (markRow_frame _ _ _ _ _) ih

theorem markRect_grid (s : CollisionState) (x y : Int) (w h : Nat) (bl : Bool)
    (r c : Nat) :
    (markRect s x y w h bl).grid r c =
      if x ≤ (c : Int) + s.gridOffsetX ∧
          (c : Int) + s.gridOffsetX < x + (w : Int) ∧
          y ≤ (r : Int) + s.gridOffsetY ∧
          (r : Int) + s.gridOffsetY < y + (h : Int) ∧
          c < s.gridW ∧ r < s.gridH
      then bl else s.grid r c := by
  induction h with
  | zero =>
    show s.grid r c = _
    rw [if_neg (by omega)]
  | succ h ih =>
    rw [markRect_succ, markRow_grid]
    obtain ⟨hW, hH, hOX, hOY⟩ := markRect_frame s x y w h bl
    rw [hW, hH, hOX, hOY, ih]
    split_ifs <;> first | rfl | omega

theorem applyNodeMarks_area_walk (s : CollisionState) (n : EnvironmentNode)
    (h1 : isAreaNode n = true) (h2 : n.walkable = true) :
    applyNodeMarks s n = markRect s n.x n.y (rawDim n.w) (rawDim n.h) false := by
  simp [applyNodeMarks, h1, h2]

theorem applyNodeMarks_area_nowalk (s : CollisionState) (n : EnvironmentNode)
    (h1 : isAreaNode n = true) (h2 : n.walkable = false) :
    applyNodeMarks s n = s := by
  simp [applyNodeMarks, h1, h2]

theorem applyNodeMarks_obj_nowalk (s : CollisionState) (n : EnvironmentNode)
    (h1 : isAreaNode n = false) (h2 : n.walkable = false) :
    applyNodeMarks s n = markRect s n.x n.y (dimOr1 n.w) (dimOr1 n.h) true := by
  simp [applyNodeMarks, h1, h2]

theorem applyNodeMarks_obj_walk (s : CollisionState) (n : EnvironmentNode)
    (h1 : isAreaNode n = false) (h2 : n.walkable = true) :
    applyNodeMarks s n = markRect s n.x n.y (dimOr1 n.w) (dimOr1 n.h) false := by
  simp [applyNodeMarks, h1, h2]

theorem applyNodeMarks_frame (s : CollisionState) (n : EnvironmentNode) :
    FrameEq (applyNodeMarks s n) s := by
  cases hA : isAreaNode n <;> cases hW : n.walkable
  · rw [applyNodeMarks_obj_nowalk s n hA hW]
    exact markRect_frame _ _ _ _ _ _
  · rw [applyNodeMarks_obj_walk s n hA hW]
    exact markRect_frame _ _ _ _ _ _
  · rw [applyNodeMarks_area_nowalk s n hA hW]
    exact ⟨rfl, rfl, rfl, rfl⟩
  · rw [applyNodeMarks_area_walk s n hA hW]
    exact markRect_frame _ _ _ _ _ _

theorem applyNodeMarks_grid (s : CollisionState) (n : EnvironmentNode)
    (r c : Nat) :
    (applyNodeMarks s n).grid r c =
      if nodeMarksB n ((c : Int) + s.gridOffsetX) ((r : Int) + s.gridOffsetY)
          = true ∧ c < s.gridW ∧ r < s.gridH
      then nodeMarkVal n else s.grid r c := by
  cases hA : isAreaNode n <;> cases hW : n.walkable
  · rw [applyNodeMarks_obj_nowalk s n hA hW, markRect_grid]
    simp only [nodeMarksB, nodeMarkVal, hA, hW, Bool.false_eq_true, if_false,
      ite_false, inRectB, decide_eq_true_eq, inRect, Bool.not_false]
    split_ifs <;> first | rfl | omega
  · rw [applyNodeMarks_obj_walk s n hA hW, markRect_grid]
    simp only [nodeMarksB, nodeMarkVal, hA, hW, Bool.false_eq_true, if_false,
      ite_false, inRectB, decide_eq_true_eq, inRect, Bool.not_true]
    split_ifs <;> first | rfl | omega
  · rw [applyNodeMarks_area_nowalk s n hA hW]
    simp only [nodeMarksB, nodeMarkVal, hA, hW, if_true, ite_true,
      Bool.false_and, Bool.false_eq_true, false_and, if_false, ite_false]
  · rw [applyNodeMarks_area_walk s n hA hW, markRect_grid]
    simp only [nodeMarksB, nodeMarkVal, hA, hW, if_true, ite_true,
      Bool.true_and, inRectB, decide_eq_true_eq, inRect, Bool.not_true]
    split_ifs <;> first | rfl | omega

theorem olast_getD (a b : Option Bool) (x : Bool) :
    (olast a b).getD x = a.getD (b.getD x) := by
  cases a <;> rfl

theorem lmf_acc (tx ty : Int) (L : List EnvironmentNode) :
    ∀ acc, L.foldl (lmStep tx ty) acc = olast (lastMarkFlat L tx ty) acc := by
  induction L with
  | nil => intro acc; rfl
  | cons m L ih =>
    intro acc
    show L.foldl (lmStep tx ty) (lmStep tx ty acc m) = _
    rw [ih (lmStep tx ty acc m)]
    have hR : lastMarkFlat (m :: L) tx ty =
        olast (lastMarkFlat L tx ty) (lmStep tx ty none m) := by
      show L.foldl (lmStep tx ty) (lmStep tx ty none m) = _
      rw [ih (lmStep tx ty none m)]
    rw [hR]
    cases hL : lastMarkFlat L tx ty
    · show lmStep tx ty acc m = olast (lmStep tx ty none m) acc
      unfold lmStep
      by_cases hm : nodeMarksB m tx ty = true
      · rw [if_pos hm, if_pos hm]; rfl
      · rw [if_neg hm, if_neg hm]; rfl
    · rfl

theorem lmf_cons (tx ty : Int) (m : EnvironmentNode) (L : List EnvironmentNode) :
    lastMarkFlat (m :: L) tx ty =
      olast (lastMarkFlat L tx ty) (lmStep tx ty none m) := by
  show L.foldl (lmStep tx ty) (lmStep tx ty none m) = _
  rw [lmf_acc tx ty L (lmStep tx ty none m)]

theorem lmf_append (tx ty : Int) (A B : List EnvironmentNode) :
    lastMarkFlat (A ++ B) tx ty =
      olast (lastMarkFlat B tx ty) (lastMarkFlat A tx ty) := by
  unfold lastMarkFlat
  rw [List.foldl_append]
  exact lmf_acc tx ty B _

theorem preorder_mk (t : String) (x y : Int) (w h : Option Nat) (wk : Bool)
    (cs : List EnvironmentNode) :
    preorder (.mk t x y w h wk cs) = .mk t x y w h wk cs :: preorderList cs := by
  simp [preorder]

theorem preorderList_cons (c : EnvironmentNode) (rest : List EnvironmentNode) :
    preorderList (c :: rest) = preorder c ++ preorderList rest := by
  simp [preorderList]

theorem preorderList_append (A B : List EnvironmentNode) :
    preorderList (A ++ B) = preorderList A ++ preorderList B := by
  induction A with
  | nil => simp [preorderList]
  | cons c A ih => simp [preorderList_cons, ih, List.append_assoc]

theorem buildList_semantics (cs : List EnvironmentNode)
    (IH : ∀ c ∈ cs, ∀ (s : CollisionState),
      FrameEq (buildCollisionFromTree s c) s ∧
      ∀ r a : Nat, (buildCollisionFromTree s c).grid r a =
        if a < s.gridW ∧ r < s.gridH
        then (lastMarkFlat (preorder c) ((a : Int) + s.gridOffsetX)
            ((r : Int) + s.gridOffsetY)).getD (s.grid r a)
        else s.grid r a) :
    ∀ s : CollisionState,
      FrameEq (buildCollisionList s cs) s ∧
      ∀ r a : Nat, (buildCollisionList s cs).grid r a =
        if a < s.gridW ∧ r < s.gridH
        then (lastMarkFlat (preorderList cs) ((a : Int) + s.gridOffsetX)
            ((r : Int) + s.gridOffsetY)).getD (s.grid r a)
        else s.grid r a := by
  induction cs with
  | nil =>
    intro s
    constructor
    · exact ⟨rfl, rfl, rfl, rfl⟩
    · intro r a
      show s.grid r a = _
      have : lastMarkFlat (preorderList ([] : List EnvironmentNode))
          ((a : Int) + s.gridOffsetX) ((r : Int) + s.gridOffsetY) = none := rfl
      rw [this]
      split_ifs <;> rfl
  | cons c rest ih =>
    intro s
    obtain ⟨hfc, hgc⟩ := IH c (List.mem_cons_self c rest) s
    obtain ⟨hfr, hgr⟩ := ih (fun c' hc' => IH c' (List.mem_cons_of_mem c hc'))
      (buildCollisionFromTree s c)
    obtain ⟨eW, eH, eX, eY⟩ := hfc
    have hbe : buildCollisionList s (c :: rest) =
        buildCollisionList (buildCollisionFromTree s c) rest := by
      simp [buildCollisionList]
    constructor
    · rw [hbe]
      exact frameEq_trans hfr ⟨eW, eH, eX, eY⟩
    · intro r a
      rw [hbe, hgr r a, eW, eH, eX, eY, hgc r a, preorderList_cons,
        lmf_append]
      by_cases hb : a < s.gridW ∧ r < s.gridH
      · rw [if_pos hb, if_pos hb, if_pos hb, olast_getD]
      · rw [if_neg hb, if_neg hb, if_neg hb]

theorem build_semantics_aux : ∀ (k : Nat) (n : EnvironmentNode),
    sizeOf n ≤ k → ∀ s : CollisionState,
      FrameEq (buildCollisionFromTree s n) s ∧
      ∀ r a : Nat, (buildCollisionFromTree s n).grid r a =
        if a < s.gridW ∧ r < s.gridH
        then (lastMarkFlat (preorder n) ((a : Int) + s.gridOffsetX)
            ((r : Int) + s.gridOffsetY)).getD (s.grid r a)
        else s.grid r a := by
  intro k
  induction k with
  | zero =>
    intro n hn
    exfalso
    cases n with
    | mk t x y w h wk cs => simp at hn
  | succ k ihk =>
    intro n hn
    cases n with
    | mk t x y w h wk cs =>
    have hcs : ∀ c ∈ cs, sizeOf c ≤ k := by
      intro c hc
      have h1 : sizeOf c < sizeOf cs := List.sizeOf_lt_of_mem hc
      have h2 : sizeOf (EnvironmentNode.mk t x y w h wk cs) =
          1 + sizeOf t + sizeOf x + sizeOf y + sizeOf w + sizeOf h +
            sizeOf wk + sizeOf cs := by simp
      omega
    intro s
    have hlist := buildList_semantics cs (fun c hc => ihk c (hcs c hc))
      (applyNodeMarks s (.mk t x y w h wk cs))
    have hbe : buildCollisionFromTree s (.mk t x y w h wk cs) =
        buildCollisionList (applyNodeMarks s (.mk t x y w h wk cs)) cs := by
      simp [buildCollisionFromTree]
    obtain ⟨eW, eH, eX, eY⟩ := applyNodeMarks_frame s (.mk t x y w h wk cs)
    constructor
    · rw [hbe]
      exact frameEq_trans hlist.1 ⟨eW, eH, eX, eY⟩
    · intro r a
      rw [hbe, hlist.2 r a, eW, eH, eX, eY, applyNodeMarks_grid,
        preorder_mk, lmf_cons]
      by_cases hb : a < s.gridW ∧ r < s.gridH
      · rw [if_pos hb, if_pos hb, olast_getD]
        congr 1
        unfold lmStep
        by_cases hm : nodeMarksB (.mk t x y w h wk cs)
            ((a : Int) + s.gridOffsetX) ((r : Int) + s.gridOffsetY) = true
        · rw [if_pos ⟨hm, hb.1, hb.2⟩, if_pos hm]
          rfl
        · rw [if_neg (by tauto), if_neg hm]
          rfl
      · rw [if_neg hb, if_neg hb, if_neg (by tauto)]

theorem build_frame (s : CollisionState) (n : EnvironmentNode) :
    FrameEq (buildCollisionFromTree s n) s :=
  (build_semantics_aux (sizeOf n) n le_rfl s).1

theorem build_grid_char (s : CollisionState) (n : EnvironmentNode)
    (r a : Nat) :
    (buildCollisionFromTree s n).grid r a =
      if a < s.gridW ∧ r < s.gridH
      then (lastMarkFlat (preorder n) ((a : Int) + s.gridOffsetX)
          ((r : Int) + s.gridOffsetY)).getD (s.grid r a)
      else s.grid r a :=
  (build_semantics_aux (sizeOf n) n le_rfl s).2 r a

theorem copyRowN_succ (s : CollisionState) (nOX nOY : Int) (nW nH y cnt : Nat)
    (g : Nat → Nat → Bool) :
    copyRowN s nOX nOY nW nH y (cnt + 1) g =
      (if 0 ≤ ((cnt : Int) + s.gridOffsetX) - nOX ∧
          ((cnt : Int) + s.gridOffsetX) - nOX < (nW : Int) ∧
          0 ≤ ((y : Int) + s.gridOffsetY) - nOY ∧
          ((y : Int) + s.gridOffsetY) - nOY < (nH : Int) then
        fun r c =>
          if r = (((y : Int) + s.gridOffsetY) - nOY).toNat ∧
              c = (((cnt : Int) + s.gridOffsetX) - nOX).toNat
          then s.grid y cnt else copyRowN s nOX nOY nW nH y cnt g r c
      else copyRowN s nOX nOY nW nH y cnt g) := by
  unfold copyRowN
  rw [List.range_succ, List.foldl_append]
  rfl

theorem copyRowN_char (s : CollisionState) (nOX nOY : Int) (nW nH y : Nat) :
    ∀ (cnt : Nat) (g : Nat → Nat → Bool) (r c : Nat),
      copyRowN s nOX nOY nW nH y cnt g r c =
        if (r : Int) = (y : Int) + s.gridOffsetY - nOY ∧ (r : Int) < (nH : Int) ∧
            (c : Int) < (nW : Int) ∧ 0 ≤ (c : Int) + nOX - s.gridOffsetX ∧
            (c : Int) + nOX - s.gridOffsetX < (cnt : Int)
        then s.grid y ((c : Int) + nOX - s.gridOffsetX).toNat
        else g r c := by
  intro cnt
  induction cnt with
  | zero =>
    intro g r c
    rw [if_neg (by omega)]
    rfl
  | succ cnt ih =>
    intro g r c
    rw [copyRowN_succ]
    by_cases hg : 0 ≤ ((cnt : Int) + s.gridOffsetX) - nOX ∧
        ((cnt : Int) + s.gridOffsetX) - nOX < (nW : Int) ∧
        0 ≤ ((y : Int) + s.gridOffsetY) - nOY ∧
        ((y : Int) + s.gridOffsetY) - nOY < (nH : Int)
    · rw [if_pos hg]
      by_cases hit : r = (((y : Int) + s.gridOffsetY) - nOY).toNat ∧
          c = (((cnt : Int) + s.gridOffsetX) - nOX).toNat
      · rw [if_pos hit, if_pos (by omega)]
        have hx : ((c : Int) + nOX - s.gridOffsetX).toNat = cnt := by omega
        rw [hx]
      · rw [if_neg hit, ih g r c]
        split_ifs <;> first | rfl | omega
    · rw [if_neg hg, ih g r c]
      split_ifs <;> first | rfl | omega

theorem copyAllN_succ (s : CollisionState) (nOX nOY : Int) (nW nH m : Nat)
    (g : Nat → Nat → Bool) :
    copyAllN s nOX nOY nW nH (m + 1) g =
      copyRowN s nOX nOY nW nH m s.gridW (copyAllN s nOX nOY nW nH m g) := by
  unfold copyAllN
  rw [List.range_succ, List.foldl_append]
  rfl

theorem copyAllN_char (s : CollisionState) (nOX nOY : Int) (nW nH : Nat) :
    ∀ (m : Nat) (g : Nat → Nat → Bool) (r c : Nat),
      copyAllN s nOX nOY nW nH m g r c =
        if 0 ≤ (r : Int) + nOY - s.gridOffsetY ∧
            (r : Int) + nOY - s.gridOffsetY < (m : Int) ∧
            (r : Int) < (nH : Int) ∧ (c : Int) < (nW : Int) ∧
            0 ≤ (c : Int) + nOX - s.gridOffsetX ∧
            (c : Int) + nOX - s.gridOffsetX < (s.gridW : Int)
        then s.grid ((r : Int) + nOY - s.gridOffsetY).toNat
            ((c : Int) + nOX - s.gridOffsetX).toNat
        else g r c := by
  intro m
  induction m with
  | zero =>
    intro g r c
    rw [if_neg (by omega)]
    rfl
  | succ m ih =>
    intro g r c
    rw [copyAllN_succ, copyRowN_char, ih g r c]
    by_cases hy : (r : Int) = (m : Int) + s.gridOffsetY - nOY ∧
        (r : Int) < (nH : Int) ∧ (c : Int) < (nW : Int) ∧
        0 ≤ (c : Int) + nOX - s.gridOffsetX ∧
        (c : Int) + nOX - s.gridOffsetX < (s.gridW : Int)
    · rw [if_pos hy, if_pos (by omega)]
      have hm : ((r : Int) + nOY - s.gridOffsetY).toNat = m := by omega
      rw [hm]
    · rw [if_neg hy]
      split_ifs <;> first | rfl | omega

theorem resize_grid_char (s : CollisionState) (root : EnvironmentNode)
    (r c : Nat) :
    (resizeCollisionGrid s root).grid r c =
      if 0 ≤ (c : Int) + root.x - s.gridOffsetX ∧
          (c : Int) + root.x - s.gridOffsetX < (s.gridW : Int) ∧
          0 ≤ (r : Int) + root.y - s.gridOffsetY ∧
          (r : Int) + root.y - s.gridOffsetY < (s.gridH : Int) ∧
          (c : Int) < (rawDim root.w : Int) ∧ (r : Int) < (rawDim root.h : Int)
      then s.grid ((r : Int) + root.y - s.gridOffsetY).toNat
          ((c : Int) + root.x - s.gridOffsetX).toNat
      else true := by
  show copyAllN s root.x root.y (rawDim root.w) (rawDim root.h) s.gridH
      (fun _ _ => true) r c = _
  rw [copyAllN_char]
  split_ifs <;> first | rfl | omega

theorem isBlocked_char (s : CollisionState) (tx ty : Int) :
    isBlocked s tx ty =
      if 0 ≤ tx - s.gridOffsetX ∧ tx - s.gridOffsetX < (s.gridW : Int) ∧
          0 ≤ ty - s.gridOffsetY ∧ ty - s.gridOffsetY < (s.gridH : Int)
      then s.grid (ty - s.gridOffsetY).toNat (tx - s.gridOffsetX).toNat
      else true := by
  unfold isBlocked
  by_cases h : 0 ≤ tx - s.gridOffsetX ∧ tx - s.gridOffsetX < (s.gridW : Int) ∧
      0 ≤ ty - s.gridOffsetY ∧ ty - s.gridOffsetY < (s.gridH : Int)
  · rw [if_neg (by omega), if_pos h]
  · rw [if_pos (by omega), if_neg h]

theorem dimOr1_pos {v : Nat} (h : 0 < v) : dimOr1 (some v) = v := by
  cases v with
  | zero => omega
  | succ k => rfl

theorem markRect_zero_w (s : CollisionState) (x y : Int) (h : Nat) (bl : Bool) :
    markRect s x y 0 h bl = s := by
  induction h with
  | zero => rfl
  | succ h ih => rw [markRect_succ, ih]; rfl

theorem markRect_zero_h (s : CollisionState) (x y : Int) (w : Nat) (bl : Bool) :
    markRect s x y w 0 bl = s := rfl

theorem lmf_none_of_no_marks (tx ty : Int) :
    ∀ L : List EnvironmentNode, (∀ m ∈ L, nodeMarksB m tx ty = false) →
      lastMarkFlat L tx ty = none := by
  intro L
  induction L with
  | nil => intro _; rfl
  | cons m L ih =>
    intro h
    rw [lmf_cons, ih (fun m' hm' => h m' (List.mem_cons_of_mem m hm'))]
    show lmStep tx ty none m = none
    unfold lmStep
    rw [if_neg]
    simp [h m (List.mem_cons_self m L)]

theorem applyNodeMarks_isBlocked (s : CollisionState) (n : EnvironmentNode)
    (tx ty : Int) :
    isBlocked (applyNodeMarks s n) tx ty =
      if nodeMarksB n tx ty = true ∧ inBounds s tx ty then nodeMarkVal n
      else isBlocked s tx ty := by
  obtain ⟨eW, eH, eX, eY⟩ := applyNodeMarks_frame s n
  rw [isBlocked_char, isBlocked_char, eW, eH, eX, eY]
  by_cases hb : 0 ≤ tx - s.gridOffsetX ∧ tx - s.gridOffsetX < (s.gridW : Int) ∧
      0 ≤ ty - s.gridOffsetY ∧ ty - s.gridOffsetY < (s.gridH : Int)
  · rw [if_pos hb, if_pos hb, applyNodeMarks_grid]
    have ex : (((tx - s.gridOffsetX).toNat : Int) + s.gridOffsetX) = tx := by
      omega
    have ey : (((ty - s.gridOffsetY).toNat : Int) + s.gridOffsetY) = ty := by
      omega
    rw [ex, ey]
    by_cases hm : nodeMarksB n tx ty = true
    · rw [if_pos ⟨hm, by omega, by omega⟩, if_pos ⟨hm, hb⟩]
    · rw [if_neg (by tauto), if_neg (by tauto)]
  · rw [if_neg hb, if_neg hb, if_neg (by exact fun hc => hb hc.2)]

theorem build_childless (s : CollisionState) (n : EnvironmentNode)
    (h : n.children = []) : buildCollisionFromTree s n = applyNodeMarks s n := by
  cases n with
  | mk t x y w h' wk cs =>
    have hcs : cs = [] := h
    subst hcs
    simp [buildCollisionFromTree, buildCollisionList]

/-- C5: for every integer tile coordinate (tx,ty), if 0 ≤ tx-offsetX < width
and 0 ≤ ty-offsetY < height then `isBlocked` returns the stored cell
`grid[ty-offsetY][tx-offsetX]`, and otherwise it returns `true`
(out-of-bounds queries are blocked; the query is total, so it never raises
an error). -/
theorem isBlocked_spec (s : CollisionState) (tx ty : Int) :
    isBlocked s tx ty =
      if 0 ≤ tx - s.gridOffsetX ∧ tx - s.gridOffsetX < (s.gridW : Int) ∧
          0 ≤ ty - s.gridOffsetY ∧ ty - s.gridOffsetY < (s.gridH : Int)
      then s.grid (ty - s.gridOffsetY).toNat (tx - s.gridOffsetX).toNat
      else true :=
  isBlocked_char s tx ty

/-- C8: the pixel-coordinate blocked query is exactly `isBlocked` applied to
the pixel coordinate floored to tile units: every pixel inside the square of
tile (tx,ty) (side `SCALED_TILE` = 48 px) queries exactly that tile. -/
theorem isBlockedAtPixel_floor_spec (s : CollisionState) (px py : ℚ)
    (tx ty : Int) (h1 : (tx : ℚ) * (SCALED_TILE : ℚ) ≤ px)
    (h2 : px < ((tx : ℚ) + 1) * (SCALED_TILE : ℚ))
    (h3 : (ty : ℚ) * (SCALED_TILE : ℚ) ≤ py)
    (h4 : py < ((ty : ℚ) + 1) * (SCALED_TILE : ℚ)) :
    isBlockedAtPixel s px py = isBlocked s tx ty := by
  have hpos : (0 : ℚ) < (SCALED_TILE : ℚ) := by
    norm_num [SCALED_TILE, TILE_SIZE, RENDER_SCALE]
  have hx : ⌊px / (SCALED_TILE : ℚ)⌋ = tx := by
    rw [Int.floor_eq_iff]
    constructor
    · rw [le_div_iff₀ hpos]
      exact h1
    · rw [div_lt_iff₀ hpos]
      exact h2
  have hy : ⌊py / (SCALED_TILE : ℚ)⌋ = ty := by
    rw [Int.floor_eq_iff]
    constructor
    · rw [le_div_iff₀ hpos]
      exact h3
    · rw [div_lt_iff₀ hpos]
      exact h4
  unfold isBlockedAtPixel
  rw [hx, hy]

/-- C8 witness: pixel (50, 3) lies in the square of tile (1, 0). -/
theorem isBlockedAtPixel_floor_spec_witness :
    isBlockedAtPixel pixelDemoState 50 3 = isBlocked pixelDemoState 1 0 :=
  isBlockedAtPixel_floor_spec pixelDemoState 50 3 1 0
    (by norm_num [SCALED_TILE, TILE_SIZE, RENDER_SCALE])
    (by norm_num [SCALED_TILE, TILE_SIZE, RENDER_SCALE])
    (by norm_num [SCALED_TILE, TILE_SIZE, RENDER_SCALE])
    (by norm_num [SCALED_TILE, TILE_SIZE, RENDER_SCALE])

/-- C9: for every walkable tile `a`, `findPath(a, a)` returns the empty path:
an unblocked goal is kept by the destination-blocked substitution, and a
start equal to the substituted goal reports "already arrived" rather than
producing a non-empty path.  (The Pathfinder is modelled from the spec: its
code is not among the sources.) -/
theorem findPath_self_empty (blocked : Tile → Bool) (a : Tile)
    (h : blocked a = false) : findPath blocked a a = [] := by
  unfold findPath substituteGoal
  rw [h]
  simp

/-- C9 witness: on a fully walkable grid, `findPath((0,0),(0,0))` is empty. -/
theorem findPath_self_empty_witness :
    findPath (fun _ => false) (0, 0) (0, 0) = [] :=
  findPath_self_empty (fun _ => false) (0, 0) rfl

/-- C10: in the tilemap-based variant, whenever no collision layer exists the
blocked query returns `false` for every tile coordinate — including
out-of-bounds ones — because the missing-layer test precedes the bounds
test. -/
theorem tilemap_isBlocked_no_layer (m : TilemapRenderer)
    (h : m.collisionLayer = none) (tx ty : Int) :
    m.isBlocked tx ty = false := by
  unfold TilemapRenderer.isBlocked
  rw [h]

/-- C10 witness: a layerless renderer reports the out-of-bounds tile
(-5, 100) as not blocked. -/
theorem tilemap_isBlocked_no_layer_witness :
    tilemapNoLayer.isBlocked (-5) 100 = false :=
  tilemap_isBlocked_no_layer tilemapNoLayer rfl (-5) 100

/-- C6: `buildCollisionFromTree` never writes outside the grid: it keeps the
frame unchanged, and every cell beyond the grid's width or height keeps its
previous value, for arbitrary node coordinates (the model's totality also
reflects that no error is raised). -/
theorem build_clips_out_of_bounds (s : CollisionState) (n : EnvironmentNode) :
    FrameEq (buildCollisionFromTree s n) s ∧
    ∀ r c : Nat, s.gridW ≤ c ∨ s.gridH ≤ r →
      (buildCollisionFromTree s n).grid r c = s.grid r c := by
  refine ⟨build_frame s n, ?_⟩
  intro r c h
  rw [build_grid_char, if_neg (by omega)]

/-- C6 witness: an object overhanging a 2×2 grid leaves the frame and the
out-of-bounds cell (5,5) untouched. -/
theorem build_clips_out_of_bounds_witness :
    FrameEq (buildCollisionFromTree clipState clipObj) clipState ∧
    (buildCollisionFromTree clipState clipObj).grid 5 5 = clipState.grid 5 5 :=
  ⟨(build_clips_out_of_bounds clipState clipObj).1,
    (build_clips_out_of_bounds clipState clipObj).2 5 5 (by decide)⟩

/-- C3: after `resizeCollisionGrid`, every world tile coordinate that is in
range of both the old and the new bounds reports the same `isBlocked` value
as before the resize (the copy loop translates each old cell by
`oldOffset - newOffset` into the new default-blocked grid). -/
theorem resize_preserves_isBlocked (s : CollisionState)
    (root : EnvironmentNode) (tx ty : Int) (hOld : inBounds s tx ty)
    (hNew : inBounds (resizeCollisionGrid s root) tx ty) :
    isBlocked (resizeCollisionGrid s root) tx ty = isBlocked s tx ty := by
  obtain ⟨o1, o2, o3, o4⟩ := hOld
  have eW : (resizeCollisionGrid s root).gridW = rawDim root.w := rfl
  have eH : (resizeCollisionGrid s root).gridH = rawDim root.h := rfl
  have eX : (resizeCollisionGrid s root).gridOffsetX = root.x := rfl
  have eY : (resizeCollisionGrid s root).gridOffsetY = root.y := rfl
  unfold inBounds at hNew
  rw [eW, eH, eX, eY] at hNew
  obtain ⟨n1, n2, n3, n4⟩ := hNew
  rw [isBlocked_char, isBlocked_char, eW, eH, eX, eY,
    if_pos ⟨n1, n2, n3, n4⟩, if_pos ⟨o1, o2, o3, o4⟩, resize_grid_char,
    if_pos (by omega)]
  have e1 : ((((ty - root.y).toNat : Int)) + root.y - s.gridOffsetY).toNat
      = (ty - s.gridOffsetY).toNat := by omega
  have e2 : ((((tx - root.x).toNat : Int)) + root.x - s.gridOffsetX).toNat
      = (tx - s.gridOffsetX).toNat := by omega
  rw [e1, e2]

/-- C3 witness: the spec scenario — westward expansion to offset (-6,0);
tile (2,2), blocked before, is still blocked (same value) after. -/
theorem resize_preserves_isBlocked_witness :
    isBlocked (resizeCollisionGrid resizeOldState resizeNewRoot) 2 2 =
      isBlocked resizeOldState 2 2 :=
  resize_preserves_isBlocked resizeOldState resizeNewRoot 2 2 (by decide)
    (by decide)

/-- C1: per-node marks follow the four-rule table exactly (stated for a node
with a present, positive footprint, before its children are processed): a
walkable area node unblocks every in-bounds footprint cell; a non-walkable
leaf object blocks them; a walkable leaf object unblocks them; a
non-walkable area node changes nothing at all; and cells outside the
footprint are never touched by the node itself. -/
theorem applyNodeMarks_rule_table (s : CollisionState) (n : EnvironmentNode)
    (wv hv : Nat) (hw : n.w = some wv) (hh : n.h = some hv)
    (hw0 : 0 < wv) (hh0 : 0 < hv) :
    (∀ tx ty : Int, isAreaNode n = true → n.walkable = true →
      inRect n.x n.y wv hv tx ty → inBounds s tx ty →
      isBlocked (applyNodeMarks s n) tx ty = false) ∧
    (∀ tx ty : Int, isAreaNode n = false → n.walkable = false →
      inRect n.x n.y wv hv tx ty → inBounds s tx ty →
      isBlocked (applyNodeMarks s n) tx ty = true) ∧
    (∀ tx ty : Int, isAreaNode n = false → n.walkable = true →
      inRect n.x n.y wv hv tx ty → inBounds s tx ty →
      isBlocked (applyNodeMarks s n) tx ty = false) ∧
    (isAreaNode n = true → n.walkable = false → applyNodeMarks s n = s) ∧
    (∀ tx ty : Int, ¬ inRect n.x n.y wv hv tx ty →
      isBlocked (applyNodeMarks s n) tx ty = isBlocked s tx ty) := by
  have hdw : rawDim n.w = wv := by rw [hw]; rfl
  have hdh : rawDim n.h = hv := by rw [hh]; rfl
  have hodw : dimOr1 n.w = wv := by rw [hw]; exact dimOr1_pos hw0
  have hodh : dimOr1 n.h = hv := by rw [hh]; exact dimOr1_pos hh0
  refine ⟨?_, ?_, ?_, ?_, ?_⟩
  · intro tx ty hA hW hin hb
    have hm : nodeMarksB n tx ty = true := by
      simp [nodeMarksB, hA, hW, inRectB, hdw, hdh, hin]
    rw [applyNodeMarks_isBlocked, if_pos ⟨hm, hb⟩]
    simp [nodeMarkVal, hW]
  · intro tx ty hA hW hin hb
    have hm : nodeMarksB n tx ty = true := by
      simp [nodeMarksB, hA, inRectB, hodw, hodh, hin]
    rw [applyNodeMarks_isBlocked, if_pos ⟨hm, hb⟩]
    simp [nodeMarkVal, hW]
  · intro tx ty hA hW hin hb
    have hm : nodeMarksB n tx ty = true := by
      simp [nodeMarksB, hA, inRectB, hodw, hodh, hin]
    rw [applyNodeMarks_isBlocked, if_pos ⟨hm, hb⟩]
    simp [nodeMarkVal, hW]
  · intro hA hW
    exact applyNodeMarks_area_nowalk s n hA hW
  · intro tx ty hout
    have hm : nodeMarksB n tx ty = false := by
      cases hA : isAreaNode n
      · simp [nodeMarksB, hA, inRectB, hodw, hodh, hout]
      · simp [nodeMarksB, hA, inRectB, hdw, hdh, hout]
    rw [applyNodeMarks_isBlocked, if_neg (by simp [hm])]

/-- C1 witness: a walkable 2×2 zone unblocks in-footprint tile (1,1) of an
all-blocked 3×3 grid. -/
theorem applyNodeMarks_rule_table_witness :
    isBlocked (applyNodeMarks ruleState ruleZone) 1 1 = false :=
  (applyNodeMarks_rule_table ruleState ruleZone 2 2 rfl rfl (by decide)
    (by decide)).1 1 1 (by decide) rfl (by decide) (by decide)

set_option maxRecDepth 40000 in
/-- C2 counterexample: `overwriteRoot` contains the leaf-object `blockObj`
with walkable = false whose 1×1 footprint covers tile (0,0); yet after the
builder runs, (0,0) is NOT blocked, because the walkable door object
processed later overwrote the mark.  This falsifies the claim as universally
stated ("every tile in that node's footprint is blocked after the builder
runs"). -/
theorem blocked_object_overwritten_cex :
    preorder overwriteRoot = [overwriteRoot, blockObj, doorObj] ∧
    isAreaNode blockObj = false ∧ blockObj.walkable = false ∧
    inRect blockObj.x blockObj.y 1 1 0 0 ∧
    isBlocked (buildCollisionFromTree (initCollisionGrid overwriteRoot)
      overwriteRoot) 0 0 = false :=
  ⟨rfl, by decide, by decide, by decide, by decide⟩

/-- C2 (amended): for every leaf-object node with walkable = false occurring
in the tree, every tile of its footprint is blocked after the builder runs,
PROVIDED no node processed after it in pre-order marks that tile; the
walkability of the enclosing area never matters, because ancestors are
processed strictly before the object and are overwritten by it. -/
theorem blocked_object_footprint_blocked (root ob : EnvironmentNode)
    (L1 L2 : List EnvironmentNode) (tx ty : Int)
    (hsplit : preorder root = L1 ++ ob :: L2)
    (hA : isAreaNode ob = false) (hW : ob.walkable = false)
    (hin : inRect ob.x ob.y (dimOr1 ob.w) (dimOr1 ob.h) tx ty)
    (hlater : ∀ m ∈ L2, nodeMarksB m tx ty = false) :
    isBlocked (buildCollisionFromTree (initCollisionGrid root) root) tx ty
      = true := by
  obtain ⟨eW, eH, eX, eY⟩ :=
    build_frame (initCollisionGrid root) root
  rw [isBlocked_char, eW, eH, eX, eY]
  by_cases hb : 0 ≤ tx - (initCollisionGrid root).gridOffsetX ∧
      tx - (initCollisionGrid root).gridOffsetX <
        ((initCollisionGrid root).gridW : Int) ∧
      0 ≤ ty - (initCollisionGrid root).gridOffsetY ∧
      ty - (initCollisionGrid root).gridOffsetY <
        ((initCollisionGrid root).gridH : Int)
  · rw [if_pos hb, build_grid_char, if_pos (by omega)]
    have ex : (((tx - (initCollisionGrid root).gridOffsetX).toNat : Int) +
        (initCollisionGrid root).gridOffsetX) = tx := by omega
    have ey : (((ty - (initCollisionGrid root).gridOffsetY).toNat : Int) +
        (initCollisionGrid root).gridOffsetY) = ty := by omega
    rw [ex, ey, hsplit, lmf_append, lmf_cons,
      lmf_none_of_no_marks tx ty L2 hlater]
    have hm : nodeMarksB ob tx ty = true := by
      simp [nodeMarksB, hA, inRectB, hin]
    show (olast (olast none (lmStep tx ty none ob))
        (lastMarkFlat L1 tx ty)).getD _ = true
    unfold lmStep
    rw [if_pos hm]
    show (olast (some (nodeMarkVal ob)) (lastMarkFlat L1 tx ty)).getD _ = true
    simp [olast, nodeMarkVal, hW]
  · rw [if_neg hb]

/-- C2 witness: in `fountainRoot` (walkable world, fountain object at (0,0),
nothing after it) tile (0,0) is blocked after the build. -/
theorem blocked_object_footprint_blocked_witness :
    isBlocked (buildCollisionFromTree (initCollisionGrid fountainRoot)
      fountainRoot) 0 0 = true :=
  blocked_object_footprint_blocked fountainRoot blockObj [fountainRoot] [] 0 0
    rfl (by decide) (by decide) (by decide)
    (fun m hm => absurd hm (List.not_mem_nil m))

set_option maxRecDepth 40000 in
/-- C7 counterexample: `zoneNoDims` is an area-kind node (zone) with both
footprint dimensions missing, walkable = true, inside a non-walkable 1×1
world.  The claim predicts the builder substitutes a 1×1 footprint and still
marks one tile — (0,0) would become unblocked — but the area branch uses the
raw dimensions, its loops run zero times, and (0,0) stays blocked. -/
theorem area_missing_dim_cex :
    isAreaNode zoneNoDims = true ∧ zoneNoDims.w = none ∧
    zoneNoDims.h = none ∧ zoneNoDims.walkable = true ∧
    isBlocked (buildCollisionFromTree (initCollisionGrid missRoot) missRoot)
      0 0 = true :=
  ⟨by decide, rfl, rfl, rfl, by decide⟩

/-- C7 (amended): the 1×1 default footprint applies only to leaf-object
nodes: a childless leaf-object node with both dimensions missing marks
exactly the single tile (x,y) with its walkability value, while an area-kind
node with a missing (or zero) dimension applies no marks at all. -/
theorem default_footprint_rules :
    (∀ (s : CollisionState) (n : EnvironmentNode) (tx ty : Int),
      isAreaNode n = false → n.w = none → n.h = none → n.children = [] →
      isBlocked (buildCollisionFromTree s n) tx ty =
        (if tx = n.x ∧ ty = n.y ∧ inBounds s tx ty then nodeMarkVal n
          else isBlocked s tx ty)) ∧
    (∀ (s : CollisionState) (n : EnvironmentNode),
      isAreaNode n = true → (rawDim n.w = 0 ∨ rawDim n.h = 0) →
      applyNodeMarks s n = s) := by
  constructor
  · intro s n tx ty hA hwn hhn hch
    rw [build_childless s n hch, applyNodeMarks_isBlocked]
    have hodw : dimOr1 n.w = 1 := by rw [hwn]; rfl
    have hodh : dimOr1 n.h = 1 := by rw [hhn]; rfl
    have hm : nodeMarksB n tx ty = true ↔ (tx = n.x ∧ ty = n.y) := by
      simp only [nodeMarksB, hA, Bool.false_eq_true, if_false, ite_false,
        inRectB, decide_eq_true_eq, inRect, hodw, hodh]
      constructor
      · intro h'
        omega
      · intro h'
        omega
    by_cases hxy : tx = n.x ∧ ty = n.y
    · by_cases hb : inBounds s tx ty
      · rw [if_pos ⟨hm.mpr hxy, hb⟩, if_pos ⟨hxy.1, hxy.2, hb⟩]
      · rw [if_neg (fun hc => hb hc.2), if_neg (fun hc => hb hc.2.2)]
    · rw [if_neg (fun hc => hxy (hm.mp hc.1)),
        if_neg (fun hc => hxy ⟨hc.1, hc.2.1⟩)]
  · intro s n hA hzero
    cases hW : n.walkable
    · exact applyNodeMarks_area_nowalk s n hA hW
    · rw [applyNodeMarks_area_walk s n hA hW]
      rcases hzero with hz | hz
      · rw [hz, markRect_zero_w]
      · rw [hz, markRect_zero_h]

/-- C7 witness: a dimensionless non-walkable object marks exactly its own
tile of a 6×6 grid, and a dimensionless walkable zone marks nothing. -/
theorem default_footprint_rules_witness :
    (isBlocked (buildCollisionFromTree defState objNoDims) 3 4 =
      (if (3 : Int) = objNoDims.x ∧ (4 : Int) = objNoDims.y ∧
          inBounds defState 3 4
        then nodeMarkVal objNoDims else isBlocked defState 3 4)) ∧
    applyNodeMarks defState zoneNoDims = defState :=
  ⟨default_footprint_rules.1 defState objNoDims 3 4 (by decide) rfl rfl rfl,
    default_footprint_rules.2 defState zoneNoDims (by decide) (Or.inl rfl)⟩

theorem preorder_eq (n : EnvironmentNode) :
    preorder n = n :: preorderList n.children := by
  cases n with
  | mk t x y w h wk cs => exact preorder_mk t x y w h wk cs

set_option maxRecDepth 100000 in
/-- C4 counterexample: the old world is a walkable 2×2 root with no children;
an expansion appends the 1×1 zone `smallSub4` at (-2,0) and grows the root
bounds to (-2,0) 4×2.  At tile (-1,0), resize-then-build-the-subtree (what
`expandWorld` does) yields blocked, while a from-scratch rebuild of the
whole new tree (what `buildWorld` does) yields unblocked, because the
walkable root marks its entire enlarged footprint in the rebuild.  The two
grids are not identical over the new bounds, so the claim fails as
universally stated. -/
theorem expand_vs_rebuild_cex :
    isBlocked (buildCollisionFromTree (resizeCollisionGrid
        (buildCollisionFromTree (initCollisionGrid oldRoot4) oldRoot4)
        cexRoot4) smallSub4) (-1) 0 = true ∧
    isBlocked (buildCollisionFromTree (initCollisionGrid cexRoot4) cexRoot4)
      (-1) 0 = false :=
  ⟨by decide, by decide⟩

/-- C4 (amended): resize-then-build-only-the-new-subtree (`expandWorld`)
agrees with a from-scratch rebuild of the whole updated tree (`buildWorld`)
on the `isBlocked` value of every tile, PROVIDED the updated root differs
from the old one only in its bounds and the appended child, and every tile
of the new bounds not inside the old bounds receives some mark from the
appended subtree.  Without that coverage the two grids differ (see the
counterexample). -/
theorem expand_equiv_rebuild (Rt Rt' N : EnvironmentNode)
    (hArea : isAreaNode Rt = true)
    (hT : Rt'.node_type = Rt.node_type)
    (hWk : Rt'.walkable = Rt.walkable)
    (hCh : Rt'.children = Rt.children ++ [N])
    (hCover : ∀ tx ty : Int,
      inRect Rt'.x Rt'.y (rawDim Rt'.w) (rawDim Rt'.h) tx ty →
      ¬ inRect Rt.x Rt.y (rawDim Rt.w) (rawDim Rt.h) tx ty →
      (lastMarkFlat (preorder N) tx ty).isSome = true)
    (tx ty : Int) :
    isBlocked (buildCollisionFromTree (resizeCollisionGrid
        (buildCollisionFromTree (initCollisionGrid Rt) Rt) Rt') N) tx ty =
      isBlocked (buildCollisionFromTree (initCollisionGrid Rt') Rt') tx ty := by
  have hA' : isAreaNode Rt' = true := by
    unfold isAreaNode
    rw [hT]
    exact hArea
  obtain ⟨s1W, s1H, s1X, s1Y⟩ := build_frame (initCollisionGrid Rt) Rt
  obtain ⟨incW, incH, incX, incY⟩ := build_frame (resizeCollisionGrid
    (buildCollisionFromTree (initCollisionGrid Rt) Rt) Rt') N
  obtain ⟨scrW, scrH, scrX, scrY⟩ := build_frame (initCollisionGrid Rt') Rt'
  have e1W : (initCollisionGrid Rt).gridW = rawDim Rt.w := rfl
  have e1H : (initCollisionGrid Rt).gridH = rawDim Rt.h := rfl
  have e1X : (initCollisionGrid Rt).gridOffsetX = Rt.x := rfl
  have e1Y : (initCollisionGrid Rt).gridOffsetY = Rt.y := rfl
  have e2W : (resizeCollisionGrid (buildCollisionFromTree
      (initCollisionGrid Rt) Rt) Rt').gridW = rawDim Rt'.w := rfl
  have e2H : (resizeCollisionGrid (buildCollisionFromTree
      (initCollisionGrid Rt) Rt) Rt').gridH = rawDim Rt'.h := rfl
  have e2X : (resizeCollisionGrid (buildCollisionFromTree
      (initCollisionGrid Rt) Rt) Rt').gridOffsetX = Rt'.x := rfl
  have e2Y : (resizeCollisionGrid (buildCollisionFromTree
      (initCollisionGrid Rt) Rt) Rt').gridOffsetY = Rt'.y := rfl
  have e3W : (initCollisionGrid Rt').gridW = rawDim Rt'.w := rfl
  have e3H : (initCollisionGrid Rt').gridH = rawDim Rt'.h := rfl
  have e3X : (initCollisionGrid Rt').gridOffsetX = Rt'.x := rfl
  have e3Y : (initCollisionGrid Rt').gridOffsetY = Rt'.y := rfl
  rw [isBlocked_char, isBlocked_char, incW, incH, incX, incY, scrW, scrH,
    scrX, scrY, e2W, e2H, e2X, e2Y, e3W, e3H, e3X, e3Y]
  by_cases hin : 0 ≤ tx - Rt'.x ∧ tx - Rt'.x < (rawDim Rt'.w : Int) ∧
      0 ≤ ty - Rt'.y ∧ ty - Rt'.y < (rawDim Rt'.h : Int)
  · rw [if_pos hin, if_pos hin, build_grid_char, build_grid_char,
      e2W, e2H, e2X, e2Y, e3W, e3H, e3X, e3Y, if_pos (by omega),
      if_pos (by omega)]
    have ecx : (((tx - Rt'.x).toNat : Int) + Rt'.x) = tx := by omega
    have ecy : (((ty - Rt'.y).toNat : Int) + Rt'.y) = ty := by omega
    rw [ecx, ecy,
      show (initCollisionGrid Rt').grid (ty - Rt'.y).toNat
        (tx - Rt'.x).toNat = true from rfl,
      preorder_eq Rt', hCh, preorderList_append,
      show preorderList [N] = preorder N ++ preorderList [] from rfl,
      show preorderList ([] : List EnvironmentNode) = [] from rfl,
      List.append_nil, lmf_cons, lmf_append]
    cases mN : lastMarkFlat (preorder N) tx ty with
    | some v => simp [olast]
    | none =>
      rw [Option.getD_none, resize_grid_char, s1W, s1H, s1X, s1Y,
        e1W, e1H, e1X, e1Y]
      by_cases hold : 0 ≤ tx - Rt.x ∧ tx - Rt.x < (rawDim Rt.w : Int) ∧
          0 ≤ ty - Rt.y ∧ ty - Rt.y < (rawDim Rt.h : Int)
      · rw [if_pos (by omega)]
        have er : ((((ty - Rt'.y).toNat : Int)) + Rt'.y - Rt.y).toNat =
            (ty - Rt.y).toNat := by omega
        have ec : ((((tx - Rt'.x).toNat : Int)) + Rt'.x - Rt.x).toNat =
            (tx - Rt.x).toNat := by omega
        rw [er, ec, build_grid_char, e1W, e1H, e1X, e1Y, if_pos (by omega)]
        have ecx2 : (((tx - Rt.x).toNat : Int) + Rt.x) = tx := by omega
        have ecy2 : (((ty - Rt.y).toNat : Int) + Rt.y) = ty := by omega
        rw [ecx2, ecy2,
          show (initCollisionGrid Rt).grid (ty - Rt.y).toNat
            (tx - Rt.x).toNat = true from rfl,
          preorder_eq Rt, lmf_cons]
        have hinO : inRect Rt.x Rt.y (rawDim Rt.w) (rawDim Rt.h) tx ty :=
          ⟨by omega, by omega, by omega, by omega⟩
        have hinN : inRect Rt'.x Rt'.y (rawDim Rt'.w) (rawDim Rt'.h) tx ty :=
          ⟨by omega, by omega, by omega, by omega⟩
        have hstep : lmStep tx ty none Rt' = lmStep tx ty none Rt := by
          unfold lmStep
          simp [nodeMarksB, hArea, hA', inRectB, hinO, hinN, nodeMarkVal, hWk]
        rw [hstep]
        rfl
      · have hinN : inRect Rt'.x Rt'.y (rawDim Rt'.w) (rawDim Rt'.h) tx ty :=
          ⟨by omega, by omega, by omega, by omega⟩
        have hnotO : ¬ inRect Rt.x Rt.y (rawDim Rt.w) (rawDim Rt.h) tx ty := by
          unfold inRect
          omega
        have hsome := hCover tx ty hinN hnotO
        rw [mN] at hsome
        simp at hsome
  · rw [if_neg hin, if_neg hin]

/-- C4 witness: with a 2×2 walkable zone subtree that exactly covers the new
western strip, the incremental and from-scratch grids agree at tile (-1,0). -/
theorem expand_equiv_rebuild_witness :
    isBlocked (buildCollisionFromTree (resizeCollisionGrid
        (buildCollisionFromTree (initCollisionGrid oldRoot4) oldRoot4)
        newRoot4) newSub4) (-1) 0 =
      isBlocked (buildCollisionFromTree (initCollisionGrid newRoot4) newRoot4)
        (-1) 0 :=
  expand_equiv_rebuild oldRoot4 newRoot4 newSub4 (by decide) rfl rfl rfl
    (by
      intro tx ty hN hO
      simp only [inRect, newRoot4, oldRoot4, newSub4, EnvironmentNode.x,
        EnvironmentNode.y, EnvironmentNode.w, EnvironmentNode.h, rawDim,
        Option.getD] at hN hO
      have hm : nodeMarksB newSub4 tx ty = true := by
        unfold nodeMarksB
        rw [if_pos (by decide : isAreaNode newSub4 = true),
          show newSub4.walkable = true from rfl, Bool.true_and]
        unfold inRectB
        rw [decide_eq_true_eq]
        refine ⟨?_, ?_, ?_, ?_⟩ <;>
          · simp only [newSub4, EnvironmentNode.x, EnvironmentNode.y,
              EnvironmentNode.w, EnvironmentNode.h, rawDim, Option.getD]
            omega
      rw [preorder_eq, show newSub4.children = [] from rfl,
        show preorderList [] = [] from rfl, lmf_cons]
      show (olast (lastMarkFlat [] tx ty) (lmStep tx ty none newSub4)).isSome
        = true
      unfold lmStep
      rw [if_pos hm]
      rfl)
    (-1) 0
